import Mathlib

/-!
Verification development for the recipe-management REST backend
(Django / Django REST Framework application with User, Tag, Ingredient and
Recipe entities).  The repository's visible sources are its test suites
(`core/tests/test_models.py`, `recipe/test/test_ingredients_api.py`,
`recipe/test/test_recipes_api.py`) and a migration
(`core/migrations/0005_auto_20190125_1020.py`); the model, serializer and
viewset modules themselves are not in the visible tree, so the operations
below are modelled from the specification, constrained by the behaviour the
visible tests assert.
-/

namespace RecipeApp

/-- A user row.  Fields from the spec §3: email (stored normalized),
password, is_active, is_staff, is_superuser.  An `id` key is added as every
Django model row has one. -/
structure User where
  id : Nat
  email : String
  password : String
  is_active : Bool
  is_staff : Bool
  is_superuser : Bool
deriving Repr, DecidableEq

/-- A tag row: `{name, owning user}` (spec §3), plus its primary key. -/
structure Tag where
  id : Nat
  name : String
  userId : Nat
deriving Repr, DecidableEq

/-- An ingredient row: same shape as `Tag` (spec §3). -/
structure Ingredient where
  id : Nat
  name : String
  userId : Nat
deriving Repr, DecidableEq

/-- A recipe row: title, time_minutes, price, optional link, owning user,
and many-to-many tag/ingredient associations held as lists of primary keys
(the `tags`/`ingredients` ManyToManyField columns added by migration
0005_auto_20190125_1020).  `price` (a decimal in the schema) is modelled as
an integer number of cents. -/
structure Recipe where
  id : Nat
  title : String
  time_minutes : Nat
  price : Int
  link : String
  userId : Nat
  tags : List Nat
  ingredients : List Nat
deriving Repr, DecidableEq

/-- The database state: the four tables plus the next primary key to hand
out. -/
structure AppState where
  users : List User
  tags : List Tag
  ingredients : List Ingredient
  recipes : List Recipe
  nextId : Nat
deriving Repr, DecidableEq

/-- Lowercase every character of a string (Python's `str.lower()` on
ASCII input). -/
def lowerStr (s : String) : String := String.mk (s.toList.map Char.toLower)

/-- The characters before the first `@` of the list (the whole list when
no `@` occurs). -/
def localChars : List Char → List Char
  | [] => []
  | c :: cs => if c = '@' then [] else c :: localChars cs

/-- The local part of an email address: everything before the first `@`
(the whole string when no `@` occurs). -/
def localPart (email : String) : String :=
  String.mk (localChars email.toList)

/-- Modelled from the spec: `create_user` of the custom user manager
(`core/models.py`, not in the visible tree).  Spec §4.1: "normalizes email
..., fails if email is empty/None"; spec §3/§8: the stored email is the
input fully lowercased.  The visible test
`ModelTests.test_new_user_invalid_email` additionally asserts that
`'@GOOD.com'` (empty local part) raises `ValueError`, so validation is
modelled as: fail when the email is `None` or its local part is empty.
Failure is modelled as `none`; on success the created row is returned. -/
def create_user (email : Option String) (password : String) : Option User :=
  match email with
  | none => none
  | some e =>
    if localPart e = "" then none
    else some
      { id := 0
        email := lowerStr e
        password := password
        is_active := true
        is_staff := false
        is_superuser := false }

/-- Modelled from the spec: `create_superuser` (`core/models.py`, not in
the visible tree).  Spec §4.1: "creates user then sets is_staff and
is_superuser true". -/
def create_superuser (email : String) (password : String) : Option User :=
  (create_user (some email) password).map
    fun u => { u with is_staff := true, is_superuser := true }

/-- Insert `a` into `l` in front of the first element `b` with
`le a b = true` (insertion step of insertion sort). -/
def insertLE (le : α → α → Bool) (a : α) : List α → List α
  | [] => [a]
  | b :: bs => if le a b then a :: b :: bs else b :: insertLE le a bs

/-- Insertion sort by the boolean relation `le`. -/
def sortLE (le : α → α → Bool) : List α → List α
  | [] => []
  | a :: as => insertLE le a (sortLE le as)

theorem mem_insertLE {le : α → α → Bool} {a x : α} {l : List α} :
    x ∈ insertLE le a l ↔ x = a ∨ x ∈ l := by
  induction l with
  | nil => simp [insertLE]
  | cons b bs ih =>
    simp only [insertLE]
    by_cases h : le a b
    · simp [h]
    · simp [h, ih]
      tauto

theorem mem_sortLE {le : α → α → Bool} {x : α} {l : List α} :
    x ∈ sortLE le l ↔ x ∈ l := by
  induction l with
  | nil => simp [sortLE]
  | cons a as ih =>
    simp [sortLE, mem_insertLE, ih]

theorem pairwise_insertLE {le : α → α → Bool}
    (htot : ∀ a b, le a b = true ∨ le b a = true)
    (htrans : ∀ a b c, le a b = true → le b c = true → le a c = true)
    {a : α} {l : List α}
    (hl : l.Pairwise (fun x y => le x y = true)) :
    (insertLE le a l).Pairwise (fun x y => le x y = true) := by
  induction l with
  | nil => simp [insertLE]
  | cons b bs ih =>
    rcases List.pairwise_cons.mp hl with ⟨hb, hbs⟩
    simp only [insertLE]
    by_cases h : le a b
    · rw [if_pos h]
      refine List.pairwise_cons.mpr ⟨?_, hl⟩
      intro x hx
      rcases List.mem_cons.mp hx with rfl | hx'
      · exact h
      · exact htrans a b x h (hb x hx')
    · rw [if_neg h]
      refine List.pairwise_cons.mpr ⟨?_, ih hbs⟩
      intro x hx
      rcases mem_insertLE.mp hx with hxa | hxl
      · rw [hxa]
        rcases htot a b with h1 | h1
        · exact absurd h1 h
        · exact h1
      · exact hb x hxl

theorem pairwise_sortLE {le : α → α → Bool}
    (htot : ∀ a b, le a b = true ∨ le b a = true)
    (htrans : ∀ a b c, le a b = true → le b c = true → le a c = true)
    (l : List α) :
    (sortLE le l).Pairwise (fun x y => le x y = true) := by
  induction l with
  | nil => simp [sortLE]
  | cons a as ih => exact pairwise_insertLE htot htrans ih

/-- Tag list ordering: by name descending (spec §4.2). -/
def tagLE (a b : Tag) : Bool := decide (b.name ≤ a.name)

/-- Ingredient list ordering: by name descending (spec §4.2, and the
`order_by('-name')` comparison in `test_retrieve_ingredients`). -/
def ingredientLE (a b : Ingredient) : Bool := decide (b.name ≤ a.name)

/-- Recipe list ordering: by id descending (spec §4.3, and the
`order_by('-id')` comparison in `test_retrieve_recipes`). -/
def recipeLE (a b : Recipe) : Bool := decide (b.id ≤ a.id)

/-- Modelled from the spec: the tag list endpoint
(`recipe/views.py`, not in the visible tree).  Spec §4.2: list "returns
only the requesting user's entities, ordered by name descending", and
rejects unauthenticated access with 401.  The request's authentication is
the id of the authenticated user, or `none`.  Returns the HTTP status and
the response body. -/
def list_tags (st : AppState) (auth : Option Nat) : Nat × List Tag :=
  match auth with
  | none => (401, [])
  | some uid =>
    (200, sortLE tagLE (st.tags.filter fun t => t.userId == uid))

/-- Modelled from the spec: the ingredient list endpoint
(`recipe/views.py`, not in the visible tree).  Same shape as `list_tags`
(spec §4.2). -/
def list_ingredients (st : AppState) (auth : Option Nat) :
    Nat × List Ingredient :=
  match auth with
  | none => (401, [])
  | some uid =>
    (200, sortLE ingredientLE (st.ingredients.filter fun g => g.userId == uid))

/-- Modelled from the spec: the recipe list endpoint
(`recipe/views.py`, not in the visible tree).  Spec §4.3: "list
(user-scoped, ordered by id descending)", 401 when unauthenticated. -/
def list_recipes (st : AppState) (auth : Option Nat) : Nat × List Recipe :=
  match auth with
  | none => (401, [])
  | some uid =>
    (200, sortLE recipeLE (st.recipes.filter fun r => r.userId == uid))

/-- A recipe request body.  Each key may be present (`some`) or absent
(`none`); `tags` and `ingredients` are lists of primary keys (spec §4.3,
§6). -/
structure RecipePayload where
  title : Option String
  time_minutes : Option Nat
  price : Option Int
  link : Option String
  tags : Option (List Nat)
  ingredients : Option (List Nat)
deriving Repr, DecidableEq

/-- Do all the listed primary keys name an existing tag row? -/
def tagsValid (st : AppState) (ids : List Nat) : Bool :=
  ids.all fun i => st.tags.any fun t => t.id == i

/-- Do all the listed primary keys name an existing ingredient row? -/
def ingredientsValid (st : AppState) (ids : List Nat) : Bool :=
  ids.all fun i => st.ingredients.any fun g => g.id == i

/-- Modelled from the spec: recipe create (POST)
(`recipe/views.py` / `recipe/serializers.py`, not in the visible tree).
Spec §4.3: "create (accepts scalar fields plus optional lists of
tag/ingredient ids to associate)"; 401 unauthenticated, 400 invalid
payload (spec §7: empty title is a validation error, and association ids
must name existing rows), 201 created.  The created row is owned by the
requesting user and is associated with exactly the listed ids (absent
keys mean no associations). -/
def create_recipe (st : AppState) (auth : Option Nat) (p : RecipePayload) :
    Nat × AppState :=
  match auth with
  | none => (401, st)
  | some uid =>
    match p.title, p.time_minutes, p.price with
    | some title, some tm, some pr =>
      if title = "" then (400, st)
      else if !tagsValid st (p.tags.getD []) then (400, st)
      else if !ingredientsValid st (p.ingredients.getD []) then (400, st)
      else
        (201,
          { st with
            recipes := st.recipes ++
              [{ id := st.nextId
                 title := title
                 time_minutes := tm
                 price := pr
                 link := p.link.getD ""
                 userId := uid
                 tags := p.tags.getD []
                 ingredients := p.ingredients.getD [] }]
            nextId := st.nextId + 1 })
    | _, _, _ => (400, st)

/-- Modelled from the spec: full update (PUT) of a recipe
(`recipe/views.py`, not in the visible tree).  Spec §4.3: "full update
(replaces all scalar fields; omitted many-to-many fields — e.g., tags —
are cleared to empty)".  The object is fetched from the user-scoped
queryset, so a recipe that does not exist or belongs to another user is
404.  Scalar fields are required (400 when absent or title empty); the
tag/ingredient sets are replaced by the supplied lists, absent keys
meaning the empty list. -/
def put_recipe (st : AppState) (auth : Option Nat) (rid : Nat)
    (p : RecipePayload) : Nat × AppState :=
  match auth with
  | none => (401, st)
  | some uid =>
    if st.recipes.any (fun r => r.id == rid && r.userId == uid) then
      match p.title, p.time_minutes, p.price with
      | some title, some tm, some pr =>
        if title = "" then (400, st)
        else if !tagsValid st (p.tags.getD []) then (400, st)
        else if !ingredientsValid st (p.ingredients.getD []) then (400, st)
        else
          (200,
            { st with
              recipes := st.recipes.map fun r =>
                if r.id == rid && r.userId == uid then
                  { r with
                    title := title
                    time_minutes := tm
                    price := pr
                    link := p.link.getD ""
                    tags := p.tags.getD []
                    ingredients := p.ingredients.getD [] }
                else r })
      | _, _, _ => (400, st)
    else (404, st)

/-- Modelled from the spec: partial update (PATCH) of a recipe
(`recipe/views.py`, not in the visible tree).  Spec §4.3: "partial update
(merges provided fields, replaces tag set wholesale if tags key present,
leaves ingredients untouched if absent)".  Absent keys leave the stored
value unchanged; a supplied tags/ingredients key replaces that
association set with exactly the supplied list. -/
def patch_recipe (st : AppState) (auth : Option Nat) (rid : Nat)
    (p : RecipePayload) : Nat × AppState :=
  match auth with
  | none => (401, st)
  | some uid =>
    if st.recipes.any (fun r => r.id == rid && r.userId == uid) then
      if p.title == some "" then (400, st)
      else if !tagsValid st (p.tags.getD []) then (400, st)
      else if !ingredientsValid st (p.ingredients.getD []) then (400, st)
      else
        (200,
          { st with
            recipes := st.recipes.map fun r =>
              if r.id == rid && r.userId == uid then
                { r with
                  title := p.title.getD r.title
                  time_minutes := p.time_minutes.getD r.time_minutes
                  price := p.price.getD r.price
                  link := p.link.getD r.link
                  tags := p.tags.getD r.tags
                  ingredients := p.ingredients.getD r.ingredients }
              else r })
    else (404, st)

theorem tagsValid_nil (st : AppState) : tagsValid st [] = true := rfl

theorem ingredientsValid_nil (st : AppState) :
    ingredientsValid st [] = true := rfl

/-- C2: for every email accepted by `create_user`, the stored email is the
input fully lowercased. -/
theorem create_user_email_fully_lowercased (e pw : String) (u : User)
    (h : create_user (some e) pw = some u) : u.email = lowerStr e := by
  have h2 : (if localPart e = "" then none
      else some { id := 0, email := lowerStr e, password := pw,
                  is_active := true, is_staff := false,
                  is_superuser := false }) = some u := h
  by_cases hl : localPart e = ""
  · rw [if_pos hl] at h2
    exact absurd h2 (by simp)
  · rw [if_neg hl] at h2
    simp only [Option.some.injEq] at h2
    rw [← h2]

/-- C2 witness: creating a user with the mixed-case email of
`test_new_user_email_normalized` stores `'test@MOREHOD.COM'.lower()`. -/
theorem create_user_email_fully_lowercased_witness :
    create_user (some "test@MOREHOD.COM") "test12345" =
      some { id := 0, email := "test@morehod.com", password := "test12345",
             is_active := true, is_staff := false, is_superuser := false } ∧
    ({ id := 0, email := "test@morehod.com", password := "test12345",
       is_active := true, is_staff := false,
       is_superuser := false } : User).email =
      lowerStr "test@MOREHOD.COM" :=
  ⟨by decide, create_user_email_fully_lowercased "test@MOREHOD.COM"
    "test12345" _ (by decide)⟩

/-- C7: `create_user` fails (returns `none`, the model of `ValueError`)
when the email is `None` or the empty string; no user is created. -/
theorem create_user_rejects_missing_email (pw : String) :
    create_user none pw = none ∧ create_user (some "") pw = none := by
  refine ⟨rfl, ?_⟩
  have h : create_user (some "") pw =
      if localPart "" = "" then none
      else some { id := 0, email := lowerStr "", password := pw,
                  is_active := true, is_staff := false,
                  is_superuser := false } := rfl
  rw [h, if_pos (by decide)]

/-- C10: `create_user` also rejects the non-empty email `'@GOOD.com'`,
whose local part is empty, as asserted by
`ModelTests.test_new_user_invalid_email`. -/
theorem create_user_rejects_empty_local_part (pw : String) :
    create_user (some "@GOOD.com") pw = none := by
  have h : create_user (some "@GOOD.com") pw =
      if localPart "@GOOD.com" = "" then none
      else some { id := 0, email := lowerStr "@GOOD.com", password := pw,
                  is_active := true, is_staff := false,
                  is_superuser := false } := rfl
  rw [h, if_pos (by decide)]

/-- C8: every user created by `create_superuser` has both `is_staff` and
`is_superuser` set to true. -/
theorem create_superuser_sets_both_flags (e pw : String) (u : User)
    (h : create_superuser e pw = some u) :
    u.is_staff = true ∧ u.is_superuser = true := by
  unfold create_superuser at h
  cases hc : create_user (some e) pw with
  | none =>
    rw [hc] at h
    exact absurd h (by simp)
  | some v =>
    rw [hc] at h
    simp only [Option.map_some', Option.some.injEq] at h
    rw [← h]
    exact ⟨rfl, rfl⟩

/-- C8 witness: the superuser of `test_create_super_user` has both flags
set. -/
theorem create_superuser_sets_both_flags_witness :
    create_superuser "test@MOREHOD.COM" "testtest123" =
      some { id := 0, email := "test@morehod.com", password := "testtest123",
             is_active := true, is_staff := true, is_superuser := true } ∧
    ({ id := 0, email := "test@morehod.com", password := "testtest123",
       is_active := true, is_staff := true,
       is_superuser := true } : User).is_staff = true ∧
    ({ id := 0, email := "test@morehod.com", password := "testtest123",
       is_active := true, is_staff := true,
       is_superuser := true } : User).is_superuser = true :=
  ⟨by decide, create_superuser_sets_both_flags "test@MOREHOD.COM"
    "testtest123" _ (by decide)⟩

/-- C6: every unauthenticated request to the tag, ingredient or recipe
list endpoint is answered with HTTP 401. -/
theorem unauthenticated_list_requests_get_401 (st : AppState) :
    (list_tags st none).1 = 401 ∧ (list_ingredients st none).1 = 401 ∧
    (list_recipes st none).1 = 401 :=
  ⟨rfl, rfl, rfl⟩

/-- C1: for every authenticated user, each list endpoint returns exactly
the rows owned by that user — every owned row appears in the response and
no row owned by anyone else does. -/
theorem list_endpoints_scoped_to_owner (st : AppState) (uid : Nat) :
    (∀ t : Tag, t ∈ (list_tags st (some uid)).2 ↔
      t ∈ st.tags ∧ t.userId = uid) ∧
    (∀ g : Ingredient, g ∈ (list_ingredients st (some uid)).2 ↔
      g ∈ st.ingredients ∧ g.userId = uid) ∧
    (∀ r : Recipe, r ∈ (list_recipes st (some uid)).2 ↔
      r ∈ st.recipes ∧ r.userId = uid) := by
  refine ⟨fun t => ?_, fun g => ?_, fun r => ?_⟩
  · simp [list_tags, mem_sortLE, List.mem_filter]
  · simp [list_ingredients, mem_sortLE, List.mem_filter]
  · simp [list_recipes, mem_sortLE, List.mem_filter]

/-- C9: the recipe list endpoint returns the authenticated user's
recipes, and the response is ordered by id descending. -/
theorem recipe_list_ordered_by_id_desc (st : AppState) (uid : Nat) :
    (∀ r : Recipe, r ∈ (list_recipes st (some uid)).2 ↔
      r ∈ st.recipes ∧ r.userId = uid) ∧
    (list_recipes st (some uid)).2.Pairwise (fun a b => b.id ≤ a.id) := by
  constructor
  · intro r
    simp [list_recipes, mem_sortLE, List.mem_filter]
  · have h := @pairwise_sortLE Recipe recipeLE
      (fun a b => by
        rcases Nat.le_total b.id a.id with h1 | h1
        · exact Or.inl (by simp [recipeLE, h1])
        · exact Or.inr (by simp [recipeLE, h1]))
      (fun a b c hab hbc => by
        simp only [recipeLE, decide_eq_true_eq] at hab hbc ⊢
        exact le_trans hbc hab)
      (st.recipes.filter fun r => r.userId == uid)
    have h2 : (list_recipes st (some uid)).2 =
        sortLE recipeLE (st.recipes.filter fun r => r.userId == uid) := rfl
    rw [h2]
    exact h.imp fun hxy => by
      simpa [recipeLE] using hxy

/-- C5: creating a recipe with lists of tag and ingredient ids appends a
row owned by the requester whose association sets are exactly the listed
ids — nothing else is attached and nothing listed is dropped. -/
theorem create_recipe_associates_exactly (st : AppState) (uid : Nat)
    (title : String) (tm : Nat) (pr : Int) (lnk : Option String)
    (ts ings : List Nat)
    (ht : title ≠ "")
    (hts : tagsValid st ts = true)
    (hings : ingredientsValid st ings = true) :
    (create_recipe st (some uid)
      ⟨some title, some tm, some pr, lnk, some ts, some ings⟩).1 = 201 ∧
    (create_recipe st (some uid)
      ⟨some title, some tm, some pr, lnk, some ts, some ings⟩).2.recipes =
      st.recipes ++
        [{ id := st.nextId, title := title, time_minutes := tm, price := pr,
           link := lnk.getD "", userId := uid, tags := ts,
           ingredients := ings }] := by
  have h : create_recipe st (some uid)
      ⟨some title, some tm, some pr, lnk, some ts, some ings⟩ =
      if title = "" then (400, st)
      else if !tagsValid st ts then (400, st)
      else if !ingredientsValid st ings then (400, st)
      else
        (201,
          { st with
            recipes := st.recipes ++
              [{ id := st.nextId, title := title, time_minutes := tm,
                 price := pr, link := lnk.getD "", userId := uid,
                 tags := ts, ingredients := ings }]
            nextId := st.nextId + 1 }) := rfl
  rw [h, if_neg ht,
    if_neg (show ¬((!tagsValid st ts) = true) by simp [hts]),
    if_neg (show ¬((!ingredientsValid st ings) = true) by simp [hings])]
  exact ⟨rfl, rfl⟩

/-- Concrete database for the C5 witness: the two tags and two
ingredients of `test_create_recipe_with_tags` /
`test_create_recipe_with_ingredients`, owned by user 1. -/
def stW5 : AppState :=
  { users := []
    tags := [⟨1, "Salad", 1⟩, ⟨2, "Fruits", 1⟩]
    ingredients := [⟨3, "Grape", 1⟩, ⟨4, "Mango", 1⟩]
    recipes := []
    nextId := 10 }

/-- C5 witness: POSTing `'Fruits Salad'` with tags `[1, 2]` and
ingredients `[3, 4]` creates a recipe associated with exactly those
ids. -/
theorem create_recipe_associates_exactly_witness :
    "Fruits Salad" ≠ "" ∧ tagsValid stW5 [1, 2] = true ∧
    ingredientsValid stW5 [3, 4] = true ∧
    ((create_recipe stW5 (some 1)
        ⟨some "Fruits Salad", some 5, some 1500, none,
         some [1, 2], some [3, 4]⟩).1 = 201 ∧
      (create_recipe stW5 (some 1)
        ⟨some "Fruits Salad", some 5, some 1500, none,
         some [1, 2], some [3, 4]⟩).2.recipes =
        stW5.recipes ++
          [{ id := stW5.nextId, title := "Fruits Salad", time_minutes := 5,
             price := 1500, link := (none : Option String).getD "",
             userId := 1, tags := [1, 2], ingredients := [3, 4] }]) :=
  ⟨by decide, by decide, by decide,
    create_recipe_associates_exactly stW5 1 "Fruits Salad" 5 1500 none
      [1, 2] [3, 4] (by decide) (by decide) (by decide)⟩

/-- C3: a PUT that supplies the scalar fields but omits the `tags` (and
`ingredients`) keys replaces the scalar fields and clears the tag set of
the addressed recipe to empty. -/
theorem put_recipe_omitted_tags_cleared (st : AppState) (uid : Nat)
    (r : Recipe) (hr : r ∈ st.recipes) (hu : r.userId = uid)
    (title : String) (tm : Nat) (pr : Int) (lnk : Option String)
    (ht : title ≠ "") :
    (put_recipe st (some uid) r.id
      ⟨some title, some tm, some pr, lnk, none, none⟩).1 = 200 ∧
    { r with title := title, time_minutes := tm, price := pr,
             link := lnk.getD "", tags := [], ingredients := [] } ∈
      (put_recipe st (some uid) r.id
        ⟨some title, some tm, some pr, lnk, none, none⟩).2.recipes ∧
    ∀ r' ∈ (put_recipe st (some uid) r.id
        ⟨some title, some tm, some pr, lnk, none, none⟩).2.recipes,
      r'.id = r.id → r'.userId = uid →
      r'.title = title ∧ r'.time_minutes = tm ∧ r'.price = pr ∧
        r'.tags = [] := by
  have hany : (st.recipes.any fun x => x.id == r.id && x.userId == uid)
      = true :=
    List.any_eq_true.mpr ⟨r, hr, by simp [hu]⟩
  have h : put_recipe st (some uid) r.id
      ⟨some title, some tm, some pr, lnk, none, none⟩ =
      if (st.recipes.any fun x => x.id == r.id && x.userId == uid) then
        if title = "" then (400, st)
        else if !tagsValid st [] then (400, st)
        else if !ingredientsValid st [] then (400, st)
        else
          (200,
            { st with
              recipes := st.recipes.map fun x =>
                if x.id == r.id && x.userId == uid then
                  { x with title := title, time_minutes := tm, price := pr,
                           link := lnk.getD "", tags := [],
                           ingredients := [] }
                else x })
      else (404, st) := rfl
  rw [h, if_pos hany, if_neg ht,
    if_neg (show ¬((!tagsValid st []) = true) by simp [tagsValid]),
    if_neg (show ¬((!ingredientsValid st []) = true) by
      simp [ingredientsValid])]
  refine ⟨rfl, ?_, ?_⟩
  · apply List.mem_map.mpr
    refine ⟨r, hr, ?_⟩
    simp [hu]
  · intro r' hm hid huid
    rcases List.mem_map.mp hm with ⟨x, hx, hfx⟩
    by_cases hc : (x.id == r.id && x.userId == uid) = true
    · rw [if_pos hc] at hfx
      rw [← hfx]
      exact ⟨rfl, rfl, rfl, rfl⟩
    · rw [if_neg hc] at hfx
      exact absurd (by simp [hfx, hid, huid]) hc

/-- Concrete database for the C3 witness: the sample recipe of
`test_full_update_recipe`, with one attached tag, owned by user 1. -/
def stW3 : AppState :=
  { users := []
    tags := [⟨1, "Sample tag", 1⟩]
    ingredients := []
    recipes := [⟨7, "Sample recipe", 10, 900, "", 1, [1], []⟩]
    nextId := 8 }

/-- The recipe row of `stW3` before the update. -/
def rcpW3 : Recipe := ⟨7, "Sample recipe", 10, 900, "", 1, [1], []⟩

/-- C3 witness: the PUT of `test_full_update_recipe` (new title, 15
minutes, price 25.00, no tags key) leaves the recipe with the new scalar
values and zero tags. -/
theorem put_recipe_omitted_tags_cleared_witness :
    rcpW3 ∈ stW3.recipes ∧ rcpW3.userId = 1 ∧ "New title" ≠ "" ∧
    ((put_recipe stW3 (some 1) rcpW3.id
        ⟨some "New title", some 15, some 2500, none, none, none⟩).1 = 200 ∧
      { rcpW3 with title := "New title", time_minutes := 15, price := 2500,
                   link := (none : Option String).getD "", tags := [],
                   ingredients := [] } ∈
        (put_recipe stW3 (some 1) rcpW3.id
          ⟨some "New title", some 15, some 2500, none, none, none⟩).2.recipes ∧
      ∀ r' ∈ (put_recipe stW3 (some 1) rcpW3.id
          ⟨some "New title", some 15, some 2500, none, none, none⟩).2.recipes,
        r'.id = rcpW3.id → r'.userId = 1 →
        r'.title = "New title" ∧ r'.time_minutes = 15 ∧ r'.price = 2500 ∧
          r'.tags = []) :=
  ⟨by decide, by decide, by decide,
    put_recipe_omitted_tags_cleared stW3 1 rcpW3 (by decide) (by decide)
      "New title" 15 2500 none (by decide)⟩

/-- C4: a PATCH whose payload carries a `tags` key replaces the recipe's
tag set wholesale with exactly the supplied ids — every post-state row
with the addressed id and owner carries `tags = ts`, so the old tags are
removed — while absent keys — in particular the `ingredients` set — keep
their stored values; recipes other than the addressed one are
untouched. -/
theorem patch_recipe_replaces_tags_keeps_rest (st : AppState) (uid : Nat)
    (r : Recipe) (hr : r ∈ st.recipes) (hu : r.userId = uid)
    (tOpt : Option String) (tmOpt : Option Nat) (prOpt : Option Int)
    (lnkOpt : Option String) (ts : List Nat)
    (hT : tOpt ≠ some "")
    (hts : tagsValid st ts = true) :
    (patch_recipe st (some uid) r.id
      ⟨tOpt, tmOpt, prOpt, lnkOpt, some ts, none⟩).1 = 200 ∧
    { r with title := tOpt.getD r.title,
             time_minutes := tmOpt.getD r.time_minutes,
             price := prOpt.getD r.price, link := lnkOpt.getD r.link,
             tags := ts, ingredients := r.ingredients } ∈
      (patch_recipe st (some uid) r.id
        ⟨tOpt, tmOpt, prOpt, lnkOpt, some ts, none⟩).2.recipes ∧
    (∀ r' ∈ st.recipes, ¬(r'.id = r.id ∧ r'.userId = uid) →
      r' ∈ (patch_recipe st (some uid) r.id
        ⟨tOpt, tmOpt, prOpt, lnkOpt, some ts, none⟩).2.recipes) ∧
    ∀ r' ∈ (patch_recipe st (some uid) r.id
        ⟨tOpt, tmOpt, prOpt, lnkOpt, some ts, none⟩).2.recipes,
      r'.id = r.id → r'.userId = uid → r'.tags = ts := by
  have hany : (st.recipes.any fun x => x.id == r.id && x.userId == uid)
      = true :=
    List.any_eq_true.mpr ⟨r, hr, by simp [hu]⟩
  have h : patch_recipe st (some uid) r.id
      ⟨tOpt, tmOpt, prOpt, lnkOpt, some ts, none⟩ =
      if (st.recipes.any fun x => x.id == r.id && x.userId == uid) then
        if tOpt == some "" then (400, st)
        else if !tagsValid st ts then (400, st)
        else if !ingredientsValid st [] then (400, st)
        else
          (200,
            { st with
              recipes := st.recipes.map fun x =>
                if x.id == r.id && x.userId == uid then
                  { x with title := tOpt.getD x.title,
                           time_minutes := tmOpt.getD x.time_minutes,
                           price := prOpt.getD x.price,
                           link := lnkOpt.getD x.link,
                           tags := ts, ingredients := x.ingredients }
                else x })
      else (404, st) := rfl
  rw [h, if_pos hany,
    if_neg (show ¬((tOpt == some "") = true) by
      simp only [beq_iff_eq]
      exact hT),
    if_neg (show ¬((!tagsValid st ts) = true) by simp [hts]),
    if_neg (show ¬((!ingredientsValid st []) = true) by
      simp [ingredientsValid])]
  refine ⟨rfl, ?_, ?_, ?_⟩
  · apply List.mem_map.mpr
    refine ⟨r, hr, ?_⟩
    simp [hu]
  · intro r' hr' hne
    apply List.mem_map.mpr
    refine ⟨r', hr', ?_⟩
    rw [if_neg (show ¬((r'.id == r.id && r'.userId == uid) = true) by
      simp only [Bool.and_eq_true, beq_iff_eq]
      exact hne)]
  · intro r' hm hid huid
    rcases List.mem_map.mp hm with ⟨x, hx, hfx⟩
    by_cases hc : (x.id == r.id && x.userId == uid) = true
    · rw [if_pos hc] at hfx
      rw [← hfx]
    · rw [if_neg hc] at hfx
      exact absurd (by simp [hfx, hid, huid]) hc

/-- Concrete database for the C4 witness: the sample recipe of
`test_partial_update_recipe` with its original tag attached, plus the
fresh tag `'New tag'`, owned by user 1. -/
def stW4 : AppState :=
  { users := []
    tags := [⟨1, "Sample tag", 1⟩, ⟨2, "New tag", 1⟩]
    ingredients := [⟨3, "Sample ingredient", 1⟩]
    recipes := [⟨7, "Sample recipe", 10, 900, "", 1, [1], [3]⟩,
                ⟨8, "Other recipe", 20, 500, "", 2, [1], []⟩]
    nextId := 9 }

/-- The recipe row of `stW4` before the update. -/
def rcpW4 : Recipe := ⟨7, "Sample recipe", 10, 900, "", 1, [1], [3]⟩

/-- C4 witness: the PATCH of `test_partial_update_recipe` (new title,
tags `[2]`, no ingredients key) leaves the recipe with exactly tag 2,
its ingredients unchanged, and does not touch the other user's
recipe. -/
theorem patch_recipe_replaces_tags_keeps_rest_witness :
    rcpW4 ∈ stW4.recipes ∧ rcpW4.userId = 1 ∧
    (some "New recipe" : Option String) ≠ some "" ∧
    tagsValid stW4 [2] = true ∧
    ((patch_recipe stW4 (some 1) rcpW4.id
        ⟨some "New recipe", none, none, none, some [2], none⟩).1 = 200 ∧
      { rcpW4 with title := (some "New recipe").getD rcpW4.title,
                   time_minutes := (none : Option Nat).getD
                     rcpW4.time_minutes,
                   price := (none : Option Int).getD rcpW4.price,
                   link := (none : Option String).getD rcpW4.link,
                   tags := [2], ingredients := rcpW4.ingredients } ∈
        (patch_recipe stW4 (some 1) rcpW4.id
          ⟨some "New recipe", none, none, none, some [2], none⟩).2.recipes ∧
      (∀ r' ∈ stW4.recipes, ¬(r'.id = rcpW4.id ∧ r'.userId = 1) →
        r' ∈ (patch_recipe stW4 (some 1) rcpW4.id
          ⟨some "New recipe", none, none, none,
           some [2], none⟩).2.recipes) ∧
      ∀ r' ∈ (patch_recipe stW4 (some 1) rcpW4.id
          ⟨some "New recipe", none, none, none,
           some [2], none⟩).2.recipes,
        r'.id = rcpW4.id → r'.userId = 1 → r'.tags = [2]) :=
  ⟨by decide, by decide, by decide, by decide,
    patch_recipe_replaces_tags_keeps_rest stW4 1 rcpW4 (by decide)
      (by decide) (some "New recipe") none none none [2] (by decide)
      (by decide)⟩

end RecipeApp
